import Mathlib

/-!
Verification development for the contractor–subcontractor messaging subsystem
of the `site4fun` backend (`apps/api/app/routers/chat.py` together with the
ORM models in `apps/api/app/models/chat.py` and the request schemas in
`apps/api/app/schemas/chat.py`).

The Python code is shallowly embedded: UUID values and timestamps are
modelled as `Nat`, database tables as lists of records inside a `Store`,
fresh-id generation (`uuid4`) as a counter, and each endpoint as a pure
function `Store → Except ChatError (result × Store)`.  An `Except.error`
result corresponds to an aborted transaction: the caller keeps the old
store, so nothing is partially committed.
-/

/-- Decidable equality of `Except` results, so concrete endpoint outcomes
can be settled by `decide`. -/
instance {ε α : Type} [DecidableEq ε] [DecidableEq α] :
    DecidableEq (Except ε α) := fun a b =>
  match a, b with
  | .error e1, .error e2 =>
    if h : e1 = e2 then .isTrue (by rw [h])
    else .isFalse (by intro hc; cases hc; exact h rfl)
  | .error e1, .ok v2 => .isFalse (by intro hc; cases hc)
  | .ok v1, .error e2 => .isFalse (by intro hc; cases hc)
  | .ok v1, .ok v2 =>
    if h : v1 = v2 then .isTrue (by rw [h])
    else .isFalse (by intro hc; cases hc; exact h rfl)

namespace Chat

/-- Row of the `users` table (the slice the chat router reads:
id, role, and the email fallback for display names). -/
structure User where
  id : Nat
  role : String
  email : String
deriving Repr, DecidableEq

/-- Row of the `conversations` table (`models/chat.py`, class `Conversation`). -/
structure Conversation where
  id : Nat
  typ : String
  created_at : Nat
deriving Repr, DecidableEq

/-- Row of the `conversation_participants` table
(`models/chat.py`, class `ConversationParticipant`). -/
structure ConversationParticipant where
  conversation_id : Nat
  user_id : Nat
  role : String
  joined_at : Nat
  last_read_message_id : Option Nat
  last_read_at : Option Nat
  unread_count : Nat
  is_archived : Bool
deriving Repr, DecidableEq

/-- Row of the `messages` table (`models/chat.py`, class `Message`). -/
structure Message where
  id : Nat
  conversation_id : Nat
  sender_id : Nat
  body : String
  content_type : String
  attachment_url : Option String
  created_at : Nat
  delivered_at : Option Nat
  read_at : Option Nat
deriving Repr, DecidableEq

/-- The relational store seen by the chat router, plus the fresh-id
counters standing in for `uuid4` (ids handed out are globally unique). -/
structure Store where
  users : List User
  conversations : List Conversation
  participants : List ConversationParticipant
  messages : List Message
  nextConvId : Nat
  nextMsgId : Nat
deriving Repr, DecidableEq

/-- Error outcomes of the chat endpoints (`HTTPException`s raised in
`routers/chat.py`, plus FastAPI query-parameter validation and the
`scalar_one_or_none` multiple-rows error). `notAParticipant` is surfaced
by the code as HTTP 404 "Conversation not found". -/
inductive ChatError where
  | userNotFound
  | selfConversation
  | incompatibleRoles
  | notAParticipant
  | emptyBody
  | messageNotFound
  | multipleResults
  | validationError
deriving Repr, DecidableEq

/-- `_ensure_roles_are_compatible`: the pairing set of the two roles must
equal {contractor, subcontractor}. -/
def rolesCompatible (r1 r2 : String) : Bool :=
  (r1 == "contractor" && r2 == "subcontractor") ||
    (r1 == "subcontractor" && r2 == "contractor")

/-- The filter of the participant subquery in `_get_existing_conversation`:
a participant row of conversation `cid` whose user id is `a` or `b`. -/
def pairRow (cid a b : Nat) (p : ConversationParticipant) : Bool :=
  p.conversation_id == cid && (p.user_id == a || p.user_id == b)

/-- `COUNT(*)` of the grouped subquery in `_get_existing_conversation`:
how many participant rows of conversation `cid` have user id `a` or `b`. -/
def pairRowCount (ps : List ConversationParticipant) (cid a b : Nat) : Nat :=
  (ps.filter (pairRow cid a b)).length

/-- `_get_existing_conversation`: select the conversations whose pair-row
count is exactly 2; `scalar_one_or_none` returns the single such row,
`none` when there is none, and raises when several match. -/
def getExistingConversation (s : Store) (a b : Nat) :
    Except ChatError (Option Conversation) :=
  match s.conversations.filter (fun c => pairRowCount s.participants c.id a b == 2) with
  | [] => .ok none
  | [c] => .ok (some c)
  | _ => .error .multipleResults

/-- `_ensure_participant`: the participant row of `(conversation_id, user_id)`,
if any (the pair is the table's primary key, so at most one row exists). -/
def ensureParticipant (s : Store) (cid uid : Nat) : Option ConversationParticipant :=
  s.participants.find? (fun p => p.conversation_id == cid && p.user_id == uid)

/-- The conversation row inserted by `create_conversation`
(type tag `contractor_subcontractor`, server timestamp). -/
def newConversationRow (cid now : Nat) : Conversation :=
  { id := cid, typ := "contractor_subcontractor", created_at := now }

/-- The participant row inserted by `create_conversation` for user `u` of
conversation `cid`: unread counter 0, nothing read yet, not archived. -/
def newParticipantRow (cid : Nat) (u : User) (now : Nat) :
    ConversationParticipant :=
  { conversation_id := cid, user_id := u.id, role := u.role, joined_at := now,
    last_read_message_id := none, last_read_at := none,
    unread_count := 0, is_archived := false }

/-- The store after the create branch of `create_conversation` commits: one
new conversation row plus the two participant rows, in one transaction. -/
def createdStore (s : Store) (cu cp : User) (now : Nat) : Store :=
  { s with
    conversations := s.conversations ++ [newConversationRow s.nextConvId now],
    participants := s.participants ++
      [newParticipantRow s.nextConvId cu now,
       newParticipantRow s.nextConvId cp now],
    nextConvId := s.nextConvId + 1 }

/-- `POST /chat/conversations` (`create_conversation`): load the counterpart,
reject self-chat and incompatible roles, return the existing conversation id
unchanged if the pair-lookup finds one, otherwise insert one conversation row
and two participant rows (unread counter 0) in one transaction. -/
def createConversation (s : Store) (currentUser : User) (counterpartyId : Nat)
    (now : Nat) : Except ChatError (Nat × Store) :=
  match s.users.find? (fun u => u.id == counterpartyId) with
  | none => .error .userNotFound
  | some counterpart =>
    if counterpart.id == currentUser.id then .error .selfConversation
    else if !rolesCompatible currentUser.role counterpart.role then
      .error .incompatibleRoles
    else
      match getExistingConversation s currentUser.id counterpart.id with
      | .error e => .error e
      | .ok (some c) => .ok (c.id, s)
      | .ok none =>
        .ok (s.nextConvId, createdStore s currentUser counterpart now)

/-- The `ORDER BY created_at DESC` relation on messages. -/
def msgDesc : Message → Message → Prop :=
  fun a b => b.created_at ≤ a.created_at

instance : DecidableRel msgDesc := fun a b => Nat.decLe b.created_at a.created_at

instance : IsTotal Message msgDesc :=
  ⟨fun a b => Nat.le_total b.created_at a.created_at⟩

instance : IsTrans Message msgDesc :=
  ⟨fun _ _ _ hab hbc => Nat.le_trans hbc hab⟩

/-- FastAPI validation of the `limit` query parameter
`limit: int = Query(50, ge=1, le=100)`: an omitted limit defaults to 50, an
out-of-range limit is rejected with a validation error (HTTP 422). -/
def validateLimit (l : Option Int) : Except ChatError Int :=
  match l with
  | none => .ok 50
  | some v => if 1 ≤ v && v ≤ 100 then .ok v else .error .validationError

/-- The paging tail of `list_messages`: order the selected messages by
`created_at` descending, fetch `limit + 1` rows, compute
`has_more = len(rows) > limit`, keep the first `limit` rows and reverse them
into ascending order. -/
def pageMessages (msgs : List Message) (limit : Nat) : List Message × Bool :=
  let sorted := List.insertionSort msgDesc msgs
  let rows := sorted.take (limit + 1)
  ((rows.take limit).reverse, decide (limit < rows.length))

/-- `GET /chat/conversations/{id}/messages` (`list_messages`) after query
validation: resolve the cursor, keep the messages of the conversation with
creation timestamp strictly below the cursor's, and page them. -/
def listMessages (s : Store) (cid uid : Nat) (beforeId : Option Nat)
    (limit : Nat) : Except ChatError (List Message × Bool) :=
  match ensureParticipant s cid uid with
  | none => .error .notAParticipant
  | some _ =>
    let base := s.messages.filter (fun m => m.conversation_id == cid)
    match beforeId with
    | none => .ok (pageMessages base limit)
    | some b =>
      match s.messages.find? (fun m => m.id == b && m.conversation_id == cid) with
      | none => .error .messageNotFound
      | some before =>
        .ok (pageMessages
          (base.filter (fun m => m.created_at < before.created_at)) limit)

/-- Python's `str.strip()` (no argument): remove leading and trailing
whitespace, modelled directly on the character list so that it evaluates
inside the kernel. -/
def pyStrip (s : String) : String :=
  ⟨((s.data.dropWhile Char.isWhitespace).reverse.dropWhile Char.isWhitespace).reverse⟩

/-- The per-recipient update of `send_message`:
`recipient.unread_count = (recipient.unread_count or 0) + 1` applied to every
participant row of the conversation other than the sender. -/
def bumpUnread (cid senderId : Nat) (p : ConversationParticipant) :
    ConversationParticipant :=
  if p.conversation_id == cid && p.user_id != senderId then
    { p with unread_count := p.unread_count + 1 }
  else p

/-- `POST /chat/conversations/{id}/messages` (`send_message`): require the
sender to be a participant, reject an empty trimmed body, insert the message
with a server-assigned id and timestamp, and increment the unread counter of
every other participant of the conversation by 1. -/
def sendMessage (s : Store) (cid senderId : Nat) (body contentType : String)
    (attachmentUrl : Option String) (now : Nat) :
    Except ChatError (Message × Store) :=
  match ensureParticipant s cid senderId with
  | none => .error .notAParticipant
  | some _ =>
    let trimmed := pyStrip body
    if trimmed == "" then .error .emptyBody
    else
      let msg : Message :=
        { id := s.nextMsgId, conversation_id := cid, sender_id := senderId,
          body := trimmed, content_type := contentType,
          attachment_url := attachmentUrl, created_at := now,
          delivered_at := none, read_at := none }
      .ok (msg,
        { s with messages := s.messages ++ [msg],
                 participants := s.participants.map (bumpUnread cid senderId),
                 nextMsgId := s.nextMsgId + 1 })

/-- The caller-row update of `mark_conversation_read`: set the last-read
pointer and timestamp and reset the unread counter of the participant row
keyed by `(cid, uid)`. -/
def readParticipantUpdate (cid uid : Nat) (lastId : Option Nat) (now : Nat)
    (p : ConversationParticipant) : ConversationParticipant :=
  if p.conversation_id == cid && p.user_id == uid then
    { p with last_read_message_id := lastId, last_read_at := some now,
             unread_count := 0 }
  else p

/-- The bulk `UPDATE messages SET read_at = now WHERE conversation_id = cid
AND sender_id != uid AND read_at IS NULL` of `mark_conversation_read`,
applied row by row. -/
def readMessageUpdate (cid uid now : Nat) (m : Message) : Message :=
  if m.conversation_id == cid && m.sender_id != uid && m.read_at.isNone then
    { m with read_at := some now }
  else m

/-- `POST /chat/conversations/{id}/read` (`mark_conversation_read`): require
the caller to be a participant; resolve the last-read message id to the
request's `message_id` if supplied (stored verbatim, never validated),
otherwise to the newest message of the conversation; set the caller's
last-read pointer and timestamp, reset the caller's unread counter to 0, and
stamp `read_at = now` on every message of the conversation from another
sender whose `read_at` is still null. Returns the stored last-read id. -/
def markConversationRead (s : Store) (cid uid : Nat)
    (payloadMessageId : Option Nat) (now : Nat) :
    Except ChatError (Option Nat × Store) :=
  match ensureParticipant s cid uid with
  | none => .error .notAParticipant
  | some _ =>
    let lastId : Option Nat :=
      match payloadMessageId with
      | some mid => some mid
      | none =>
        ((List.insertionSort msgDesc
            (s.messages.filter (fun m => m.conversation_id == cid))).head?).map
          (fun m => m.id)
    .ok (lastId,
      { s with participants := s.participants.map (readParticipantUpdate cid uid lastId now),
               messages := s.messages.map (readMessageUpdate cid uid now) })

/-- The in-memory websocket registry (`ConnectionManager._connections`),
a map from user id to that user's set of open connections, modelled as an
association list of connection-id lists. -/
structure ConnectionManager where
  connections : List (Nat × List Nat)
deriving Repr, DecidableEq

/-- `self._connections.get(user_id)` — lookup without inserting. -/
def getConnections (m : ConnectionManager) (uid : Nat) : Option (List Nat) :=
  (m.connections.find? (fun e => e.fst == uid)).map (fun e => e.snd)

/-- Replace user `uid`'s connection set (the in-place mutation of the set
object held by the dict). -/
def setConnections (m : ConnectionManager) (uid : Nat) (conns : List Nat) :
    ConnectionManager :=
  ⟨m.connections.map (fun e => if e.fst == uid then (e.fst, conns) else e)⟩

/-- `self._connections.pop(user_id, None)`. -/
def popUser (m : ConnectionManager) (uid : Nat) : ConnectionManager :=
  ⟨m.connections.filter (fun e => e.fst != uid)⟩

/-- `ConnectionManager.disconnect`, embedded literally: fetch the set; if it
is truthy (non-empty) and holds the websocket, remove the websocket; then
pop the user entry only if the resulting set is simultaneously truthy and
falsy — a condition that can never hold, so the entry is never popped. -/
def disconnect (m : ConnectionManager) (uid ws : Nat) : ConnectionManager :=
  match getConnections m uid with
  | none => m
  | some conns =>
    let conns1 := if !conns.isEmpty && conns.contains ws then conns.erase ws else conns
    let m1 := setConnections m uid conns1
    if !conns1.isEmpty && conns1.isEmpty then popUser m1 uid else m1

/-- The flat target list of `ConnectionManager.broadcast`: every connection
of every listed user (users without an entry contribute the empty set). -/
def broadcastTargets (m : ConnectionManager) (userIds : List Nat) : List Nat :=
  userIds.flatMap (fun uid => (getConnections m uid).getD [])

/-- `ConnectionManager.broadcast`: serialize once, snapshot the targets, and
attempt `send_json` on each; a raised exception is swallowed (`except
Exception: pass`), so the loop continues with the remaining connections, the
failure is never surfaced, and the registry is left untouched. `sendOk`
tells which connection writes succeed; the returned list holds the
connections actually delivered to. -/
def broadcast (m : ConnectionManager) (userIds : List Nat) (sendOk : Nat → Bool) :
    ConnectionManager × List Nat :=
  (m, (broadcastTargets m userIds).filter sendOk)

/-- Example registry: user 1 owns the single open connection 10. -/
def exRegistry : ConnectionManager := ⟨[(1, [10])]⟩

/-- Example contractor account. -/
def exContractor : User := { id := 1, role := "contractor", email := "c@example.com" }

/-- Example subcontractor account. -/
def exSubcontractor : User := { id := 2, role := "subcontractor", email := "s@example.com" }

/-- Example third account, also a subcontractor. -/
def exThirdUser : User := { id := 3, role := "subcontractor", email := "t@example.com" }

/-- Example conversation row with id 1. -/
def exConv : Conversation :=
  { id := 1, typ := "contractor_subcontractor", created_at := 0 }

/-- Fresh participant row of conversation 1 for the given user. -/
def exPartRow (uid : Nat) (role : String) : ConversationParticipant :=
  { conversation_id := 1, user_id := uid, role := role, joined_at := 0,
    last_read_message_id := none, last_read_at := none,
    unread_count := 0, is_archived := false }

/-- Store whose only conversation has THREE participants (users 1, 2, 3):
the shape the pair lookup is claimed to exclude. -/
def tripleStore : Store :=
  { users := [exContractor, exSubcontractor, exThirdUser],
    conversations := [exConv],
    participants :=
      [exPartRow 1 "contractor", exPartRow 2 "subcontractor",
       exPartRow 3 "subcontractor"],
    messages := [],
    nextConvId := 2, nextMsgId := 1 }

/-- Message 1 of conversation 1, sent by user 1 at time 5. -/
def tieMsg1 : Message :=
  { id := 1, conversation_id := 1, sender_id := 1, body := "hi",
    content_type := "text", attachment_url := none, created_at := 5,
    delivered_at := none, read_at := none }

/-- Message 2 of conversation 1, sent by user 2, with the SAME creation
timestamp as `tieMsg1` but a larger id. -/
def tieMsg2 : Message :=
  { id := 2, conversation_id := 1, sender_id := 2, body := "yo",
    content_type := "text", attachment_url := none, created_at := 5,
    delivered_at := none, read_at := none }

/-- Store with one two-party conversation (users 1 and 2) holding the two
equal-timestamp messages. -/
def tieStore : Store :=
  { users := [exContractor, exSubcontractor],
    conversations := [exConv],
    participants := [exPartRow 1 "contractor", exPartRow 2 "subcontractor"],
    messages := [tieMsg1, tieMsg2],
    nextConvId := 2, nextMsgId := 3 }

/-- Store with the two compatible users and no conversation yet. -/
def pairStore : Store :=
  { users := [exContractor, exSubcontractor],
    conversations := [], participants := [], messages := [],
    nextConvId := 1, nextMsgId := 1 }

/-- The message produced by sending " ping " in `tieStore` at time 9. -/
def sentMsgEx : Message :=
  { id := 3, conversation_id := 1, sender_id := 1, body := "ping",
    content_type := "text", attachment_url := none, created_at := 9,
    delivered_at := none, read_at := none }

/-- The store after user 1 sends " ping " in `tieStore` at time 9: the
message is appended and user 2's unread counter is bumped to 1. -/
def sentStoreEx : Store :=
  { users := [exContractor, exSubcontractor],
    conversations := [exConv],
    participants :=
      [exPartRow 1 "contractor",
       { exPartRow 2 "subcontractor" with unread_count := 1 }],
    messages := [tieMsg1, tieMsg2, sentMsgEx],
    nextConvId := 2, nextMsgId := 4 }

/-- The store after user 2 marks conversation 1 of `tieStore` read up to
message 2 at time 7: message 1 (from the counterpart, unread) is stamped,
message 2 (user 2's own) is untouched, and user 2's row records the read. -/
def readStoreEx : Store :=
  { users := [exContractor, exSubcontractor],
    conversations := [exConv],
    participants :=
      [exPartRow 1 "contractor",
       { exPartRow 2 "subcontractor" with
          last_read_message_id := some 2, last_read_at := some 7 }],
    messages := [{ tieMsg1 with read_at := some 7 }, tieMsg2],
    nextConvId := 2, nextMsgId := 3 }

end Chat

namespace Chat

/-- Claim C9 (code bug): `disconnect` is claimed to drop the user's map entry
once its connection set becomes empty, but the guard
`if connections and not connections` is unsatisfiable, so after removing
user 1's last connection the registry still holds the entry `1 ↦ ∅`. -/
theorem disconnect_leaves_empty_entry :
    disconnect exRegistry 1 10 = ⟨[(1, [])]⟩ ∧
    getConnections (disconnect exRegistry 1 10) 1 = some [] := by
  decide

/-- Claim C8 (counterexample): when the only delivery to user 1's connection
10 fails, `broadcast` leaves the registry unchanged — connection 10 is still
registered and is still a target of the next broadcast, contrary to the
claim that a failed write drops it from the registry. -/
theorem broadcast_keeps_failed_connection :
    (broadcast exRegistry [1] (fun _ => false)).snd = [] ∧
    (broadcast exRegistry [1] (fun _ => false)).fst = exRegistry ∧
    broadcastTargets (broadcast exRegistry [1] (fun _ => false)).fst [1] = [10] := by
  decide

/-- Claim C8 (amended): a failed write is swallowed and never surfaced, and
each connection is delivered to independently of the others, but `broadcast`
never alters the registry — a failing connection stays registered (it is
removed only by the websocket handler's own disconnect path). -/
theorem broadcast_best_effort (m : ConnectionManager) (userIds : List Nat)
    (sendOk : Nat → Bool) :
    (broadcast m userIds sendOk).fst = m ∧
    ∀ c : Nat, c ∈ (broadcast m userIds sendOk).snd ↔
      c ∈ broadcastTargets m userIds ∧ sendOk c = true := by
  refine ⟨rfl, fun c => ?_⟩
  simp [broadcast, List.mem_filter]

/-- Claim C6 (counterexample): a request with `limit = 0` or `limit = 500`
is rejected with a validation error instead of being clamped to 1 or 100. -/
theorem validateLimit_rejects_out_of_range :
    validateLimit (some 0) = .error .validationError ∧
    validateLimit (some 500) = .error .validationError := by
  decide

/-- Claim C6 (amended): an omitted limit defaults to 50, an in-range limit
is used as given, and an out-of-range limit fails validation (it is not
clamped). -/
theorem validateLimit_spec :
    validateLimit none = .ok 50 ∧
    ∀ v : Int, (1 ≤ v → v ≤ 100 → validateLimit (some v) = .ok v) ∧
      (v < 1 ∨ 100 < v → validateLimit (some v) = .error .validationError) := by
  refine ⟨rfl, fun v => ⟨fun h1 h2 => ?_, fun h => ?_⟩⟩
  · simp [validateLimit, h1, h2]
  · have hcond : ¬(1 ≤ v ∧ v ≤ 100) := by omega
    simp only [validateLimit, Bool.and_eq_true, decide_eq_true_eq]
    rw [if_neg (by tauto)]

/-- Witness for `validateLimit_spec` at the concrete limit 77. -/
theorem validateLimit_spec_witness : validateLimit (some 77) = .ok 77 :=
  (validateLimit_spec.2 77).1 (by decide) (by decide)

/-- Claim C7: a sender who is not a participant of the conversation is
rejected (surfaced as HTTP 404 "Conversation not found") before any write:
the operation returns an error, so no message row is inserted and no unread
counter changes. -/
theorem sendMessage_requires_participant (s : Store) (cid uid : Nat)
    (body contentType : String) (att : Option String) (now : Nat)
    (h : ensureParticipant s cid uid = none) :
    sendMessage s cid uid body contentType att now = .error .notAParticipant := by
  unfold sendMessage
  rw [h]

/-- Witness for `sendMessage_requires_participant`: user 5 is not a
participant of conversation 1 in `tieStore`. -/
theorem sendMessage_requires_participant_witness :
    sendMessage tieStore 1 5 "hi" "text" none 9 = .error .notAParticipant :=
  sendMessage_requires_participant tieStore 1 5 "hi" "text" none 9 (by decide)

/-- Claim C1 (counterexample): `findExisting(1, 2)` on a store whose only
conversation has the three participants 1, 2 and 3 still returns that
conversation — the count-2 filter does not exclude a third participant, so
the participant set is not exactly the pair. -/
theorem findExisting_matches_three_party_conversation :
    getExistingConversation tripleStore 1 2 = .ok (some exConv) ∧
    (tripleStore.participants.filter
        (fun p => p.conversation_id == exConv.id)).length = 3 ∧
    (tripleStore.participants.map (fun p => p.user_id)).contains 3 = true := by
  decide

/-- Claim C1 (amended): the pair lookup returns conversation `c` if and
only if `c` is stored, exactly two of `c`'s participant rows have user id
`a` or `b`, and `c` is the unique stored conversation with that property
(exactly one matches); both `a` and `b` then participate when rows are
unique per user, but a conversation containing `a` and `b` together with a
third participant also satisfies the property and is returned. -/
theorem findExisting_amended (s : Store) (a b : Nat) (c : Conversation) :
    getExistingConversation s a b = .ok (some c) ↔
      (c ∈ s.conversations ∧ pairRowCount s.participants c.id a b = 2 ∧
       (s.conversations.filter
         (fun x => pairRowCount s.participants x.id a b == 2)).length = 1) := by
  constructor
  · intro h
    unfold getExistingConversation at h
    rcases hl : s.conversations.filter
        (fun x => pairRowCount s.participants x.id a b == 2) with _ | ⟨c1, _ | ⟨c2, t⟩⟩ <;>
      rw [hl] at h
    · simp at h
    · simp only [Except.ok.injEq, Option.some.injEq] at h
      subst h
      have hmem : c1 ∈ s.conversations.filter
          (fun x => pairRowCount s.participants x.id a b == 2) := by
        rw [hl]; exact List.mem_cons_self c1 []
      obtain ⟨hin, hpred⟩ := List.mem_filter.mp hmem
      exact ⟨hin, by simpa using hpred, by rw [hl]; rfl⟩
    · simp at h
  · rintro ⟨hmem, hcount, hlen⟩
    obtain ⟨x, hx⟩ := List.length_eq_one.mp hlen
    have hcf : c ∈ s.conversations.filter
        (fun y => pairRowCount s.participants y.id a b == 2) :=
      List.mem_filter.mpr ⟨hmem, by simp [hcount]⟩
    rw [hx] at hcf
    have hcx : c = x := by simpa using hcf
    subst hcx
    unfold getExistingConversation
    rw [hx]

/-- Witness for `findExisting_amended`: the right-to-left direction applied
on the three-party store — the unique matching conversation is returned
even though it has a third participant. -/
theorem findExisting_amended_witness :
    getExistingConversation tripleStore 1 2 = .ok (some exConv) :=
  (findExisting_amended tripleStore 1 2 exConv).mpr
    ⟨by decide, by decide, by decide⟩

/-- Claim C3 (counterexample): message 1 shares the cursor message 2's
creation timestamp and has a smaller id, so the claim puts it in the
strictly-older page; the code filters on `created_at <` alone and returns
the empty page with `hasMore = false`. -/
theorem listMessages_excludes_equal_timestamp :
    tieMsg1 ∈ tieStore.messages ∧
    tieMsg1.created_at = tieMsg2.created_at ∧ tieMsg1.id < tieMsg2.id ∧
    listMessages tieStore 1 1 (some tieMsg2.id) 50 = .ok ([], false) := by
  decide

/-- Claim C10: `markRead` never validates the supplied message id — for any
participant caller and ANY id `mid`, the call succeeds and stores `mid`
verbatim as the caller's `last_read_message_id`, even when no message of the
conversation (or of the store) has that id. -/
theorem markRead_stores_unvalidated_id (s : Store) (cid uid mid now : Nat)
    (p : ConversationParticipant) (h : ensureParticipant s cid uid = some p) :
    ∃ s1 : Store,
      markConversationRead s cid uid (some mid) now = .ok (some mid, s1) ∧
      ∀ q ∈ s1.participants, q.conversation_id = cid → q.user_id = uid →
        q.last_read_message_id = some mid := by
  unfold markConversationRead
  rw [h]
  refine ⟨_, rfl, ?_⟩
  intro q hq hqc hqu
  obtain ⟨p0, hp0, rfl⟩ := List.mem_map.mp hq
  have hc : p0.conversation_id = cid := by
    unfold readParticipantUpdate at hqc
    split at hqc <;> simpa using hqc
  have hu : p0.user_id = uid := by
    unfold readParticipantUpdate at hqu
    split at hqu <;> simpa using hqu
  unfold readParticipantUpdate
  rw [if_pos (by simp [hc, hu])]

/-- Witness for `markRead_stores_unvalidated_id`: user 1 marks conversation
1 of `tieStore` read up to the nonexistent message id 999. -/
theorem markRead_stores_unvalidated_id_witness :
    ∃ s1 : Store,
      markConversationRead tieStore 1 1 (some 999) 7 = .ok (some 999, s1) ∧
      ∀ q ∈ s1.participants, q.conversation_id = 1 → q.user_id = 1 →
        q.last_read_message_id = some 999 :=
  markRead_stores_unvalidated_id tieStore 1 1 999 7 (exPartRow 1 "contractor")
    (by decide)

/-- Claim C4: on every successful send, each participant row of the
conversation other than the sender's has its unread counter incremented by
exactly 1, while the sender's own row and the rows of other conversations
are unchanged. -/
theorem sendMessage_unread_increment (s : Store) (cid senderId : Nat)
    (body contentType : String) (att : Option String) (now : Nat)
    (msg : Message) (s1 : Store)
    (h : sendMessage s cid senderId body contentType att now = .ok (msg, s1)) :
    s1.participants.length = s.participants.length ∧
    ∀ (i : Nat) (hi : i < s.participants.length)
      (hi1 : i < s1.participants.length),
      ((s.participants[i].conversation_id = cid →
        s.participants[i].user_id ≠ senderId →
        s1.participants[i].unread_count = s.participants[i].unread_count + 1) ∧
      (s.participants[i].user_id = senderId →
        s1.participants[i] = s.participants[i]) ∧
      (s.participants[i].conversation_id ≠ cid →
        s1.participants[i] = s.participants[i])) := by
  unfold sendMessage at h
  cases hp : ensureParticipant s cid senderId <;> rw [hp] at h
  · cases h
  · by_cases ht : (pyStrip body == "") = true
    · rw [if_pos ht] at h
      cases h
    · rw [if_neg ht] at h
      injection h with hpair
      injection hpair with hmsg hstore
      subst hstore
      refine ⟨by simp, ?_⟩
      intro i hi hi1
      simp only [List.getElem_map]
      unfold bumpUnread
      refine ⟨fun hcid hne => ?_, fun hme => ?_, fun hother => ?_⟩
      · rw [if_pos (by simp [hcid, hne])]
      · rw [if_neg (by simp [hme])]
      · rw [if_neg (by simp [hother])]

/-- Witness for `sendMessage_unread_increment`: user 1 sends " ping " in
`tieStore` at time 9, yielding `sentMsgEx` and `sentStoreEx`. -/
theorem sendMessage_unread_increment_witness :
    sentStoreEx.participants.length = tieStore.participants.length ∧
    ∀ (i : Nat) (hi : i < tieStore.participants.length)
      (hi1 : i < sentStoreEx.participants.length),
      ((tieStore.participants[i].conversation_id = 1 →
        tieStore.participants[i].user_id ≠ 1 →
        sentStoreEx.participants[i].unread_count =
          tieStore.participants[i].unread_count + 1) ∧
      (tieStore.participants[i].user_id = 1 →
        sentStoreEx.participants[i] = tieStore.participants[i]) ∧
      (tieStore.participants[i].conversation_id ≠ 1 →
        sentStoreEx.participants[i] = tieStore.participants[i])) :=
  sendMessage_unread_increment tieStore 1 1 " ping " "text" none 9 sentMsgEx
    sentStoreEx (by decide)

/-- Claim C5: every successful `markRead` resets the caller's unread counter
to 0 and stamps `read_at = now` on exactly the conversation's messages from
other senders whose `read_at` was null; a message whose `read_at` is already
non-null keeps its value (so, the theorem holding for every store, any later
`markRead` leaves it unchanged and re-marking is a no-op), and messages of
other conversations or authored by the caller are untouched. -/
theorem markRead_resets_and_stamps (s : Store) (cid uid : Nat)
    (pm : Option Nat) (now : Nat) (lastId : Option Nat) (s1 : Store)
    (h : markConversationRead s cid uid pm now = .ok (lastId, s1)) :
    s1.participants.length = s.participants.length ∧
    s1.messages.length = s.messages.length ∧
    (∀ (i : Nat) (hi : i < s.participants.length)
      (hi1 : i < s1.participants.length),
      s.participants[i].conversation_id = cid →
      s.participants[i].user_id = uid →
      s1.participants[i].unread_count = 0) ∧
    ∀ (i : Nat) (hi : i < s.messages.length) (hi1 : i < s1.messages.length),
      ((s.messages[i].conversation_id = cid →
        s.messages[i].sender_id ≠ uid →
        s.messages[i].read_at = none →
        s1.messages[i].read_at = some now) ∧
      (∀ t : Nat, s.messages[i].read_at = some t →
        s1.messages[i].read_at = some t) ∧
      (s.messages[i].conversation_id = cid → s.messages[i].sender_id = uid →
        s1.messages[i] = s.messages[i]) ∧
      (s.messages[i].conversation_id ≠ cid →
        s1.messages[i] = s.messages[i])) := by
  unfold markConversationRead at h
  cases hp : ensureParticipant s cid uid <;> rw [hp] at h
  · cases h
  · injection h with hpair
    injection hpair with hlast hstore
    subst hstore
    refine ⟨by simp, by simp, ?_, ?_⟩
    · intro i hi hi1 hc hu
      simp only [List.getElem_map]
      unfold readParticipantUpdate
      rw [if_pos (by simp [hc, hu])]
    · intro i hi hi1
      simp only [List.getElem_map]
      unfold readMessageUpdate
      refine ⟨fun h1 h2 h3 => ?_, fun t ht => ?_, fun h1 h2 => ?_, fun h1 => ?_⟩
      · rw [if_pos (by simp [h1, h2, h3])]
      · rw [if_neg (by simp [ht])]
        exact ht
      · rw [if_neg (by simp [h2])]
      · rw [if_neg (by simp [h1])]

/-- Witness for `markRead_resets_and_stamps`: user 2 marks conversation 1 of
`tieStore` read up to message 2 at time 7, yielding `readStoreEx`. -/
theorem markRead_resets_and_stamps_witness :
    readStoreEx.participants.length = tieStore.participants.length ∧
    readStoreEx.messages.length = tieStore.messages.length ∧
    (∀ (i : Nat) (hi : i < tieStore.participants.length)
      (hi1 : i < readStoreEx.participants.length),
      tieStore.participants[i].conversation_id = 1 →
      tieStore.participants[i].user_id = 2 →
      readStoreEx.participants[i].unread_count = 0) ∧
    ∀ (i : Nat) (hi : i < tieStore.messages.length)
      (hi1 : i < readStoreEx.messages.length),
      ((tieStore.messages[i].conversation_id = 1 →
        tieStore.messages[i].sender_id ≠ 2 →
        tieStore.messages[i].read_at = none →
        readStoreEx.messages[i].read_at = some 7) ∧
      (∀ t : Nat, tieStore.messages[i].read_at = some t →
        readStoreEx.messages[i].read_at = some t) ∧
      (tieStore.messages[i].conversation_id = 1 →
        tieStore.messages[i].sender_id = 2 →
        readStoreEx.messages[i] = tieStore.messages[i]) ∧
      (tieStore.messages[i].conversation_id ≠ 1 →
        readStoreEx.messages[i] = tieStore.messages[i])) :=
  markRead_resets_and_stamps tieStore 1 2 (some 2) 7 (some 2) readStoreEx
    (by decide)

/-- Helper: the pager keeps exactly `min limit count` of its input
messages, drawn from the input, in ascending `created_at` order; any input
message left out of the page has a creation timestamp at most that of every
paged message (the page holds the newest ones, up to equal-timestamp ties);
and `has_more` is true exactly when the input holds more than `limit`
messages. -/
theorem pageMessages_spec (msgs : List Message) (limit : Nat) :
    (pageMessages msgs limit).fst.length = min limit msgs.length ∧
    (∀ m ∈ (pageMessages msgs limit).fst, m ∈ msgs) ∧
    (pageMessages msgs limit).fst.Pairwise
      (fun x y => x.created_at ≤ y.created_at) ∧
    ((pageMessages msgs limit).snd = true ↔ limit < msgs.length) ∧
    (∀ m ∈ msgs, m ∉ (pageMessages msgs limit).fst →
      ∀ m2 ∈ (pageMessages msgs limit).fst,
        m.created_at ≤ m2.created_at) := by
  unfold pageMessages
  refine ⟨?_, ?_, ?_, ?_, ?_⟩
  · rw [List.length_reverse, List.take_take,
      inf_eq_left.mpr (Nat.le_succ limit), List.length_take,
      List.length_insertionSort]
  · intro m hm
    rw [List.mem_reverse] at hm
    exact (List.mem_insertionSort msgDesc).mp
      (List.mem_of_mem_take (List.mem_of_mem_take hm))
  · rw [List.pairwise_reverse]
    exact List.Pairwise.sublist (List.take_sublist _ _)
      (List.Pairwise.sublist (List.take_sublist _ _)
        (List.sorted_insertionSort msgDesc msgs))
  · simp only [decide_eq_true_eq, List.length_take, List.length_insertionSort]
    rw [lt_inf_iff]
    exact ⟨fun h => h.2, fun h => ⟨Nat.lt_succ_self limit, h⟩⟩
  · intro m hm hnot m2 hm2
    simp only [List.mem_reverse, List.take_take,
      inf_eq_left.mpr (Nat.le_succ limit)] at hnot hm2
    have hmem : m ∈ List.insertionSort msgDesc msgs :=
      (List.mem_insertionSort msgDesc).mpr hm
    rw [← List.take_append_drop limit (List.insertionSort msgDesc msgs)]
      at hmem
    have hdrop : m ∈ (List.insertionSort msgDesc msgs).drop limit := by
      rcases List.mem_append.mp hmem with h | h
      · exact absurd h hnot
      · exact h
    have hsorted := List.sorted_insertionSort msgDesc msgs
    rw [← List.take_append_drop limit (List.insertionSort msgDesc msgs)]
      at hsorted
    exact (List.pairwise_append.mp hsorted).2.2 m2 hm2 m hdrop

/-- Claim C3 (amended): with a valid cursor, `listMessages` returns exactly
`min limit count` messages, where `count` is the number of the
conversation's messages with creation timestamp STRICTLY below the
cursor's — a message sharing the cursor's timestamp is excluded regardless
of its id, there is no id tie-break — and these are the newest such
messages up to equal-timestamp ties (every omitted timestamp-older message
has timestamp at most that of every returned one), in ascending timestamp
order, with `hasMore` true exactly when more timestamp-older messages
remain beyond the page; with the cursor omitted it returns the newest page
of the whole conversation in the same sense. -/
theorem listMessages_amended (s : Store) (cid uid bid limit : Nat)
    (p : ConversationParticipant) (before : Message)
    (hpart : ensureParticipant s cid uid = some p)
    (hcur : s.messages.find?
      (fun m => m.id == bid && m.conversation_id == cid) = some before) :
    (∃ (page : List Message) (hasMore : Bool),
      listMessages s cid uid (some bid) limit = .ok (page, hasMore) ∧
      page.length = min limit
        (((s.messages.filter (fun m => m.conversation_id == cid)).filter
          (fun m => m.created_at < before.created_at)).length) ∧
      (∀ m ∈ page, m.conversation_id = cid ∧
        m.created_at < before.created_at) ∧
      page.Pairwise (fun x y => x.created_at ≤ y.created_at) ∧
      (∀ m ∈ (s.messages.filter (fun m => m.conversation_id == cid)).filter
          (fun m => m.created_at < before.created_at),
        m ∉ page → ∀ m2 ∈ page, m.created_at ≤ m2.created_at) ∧
      (hasMore = true ↔ limit <
        ((s.messages.filter (fun m => m.conversation_id == cid)).filter
          (fun m => m.created_at < before.created_at)).length)) ∧
    ∃ (page : List Message) (hasMore : Bool),
      listMessages s cid uid none limit = .ok (page, hasMore) ∧
      page.length = min limit
        ((s.messages.filter (fun m => m.conversation_id == cid)).length) ∧
      (∀ m ∈ page, m.conversation_id = cid) ∧
      page.Pairwise (fun x y => x.created_at ≤ y.created_at) ∧
      (∀ m ∈ s.messages.filter (fun m => m.conversation_id == cid),
        m ∉ page → ∀ m2 ∈ page, m.created_at ≤ m2.created_at) ∧
      (hasMore = true ↔ limit <
        (s.messages.filter (fun m => m.conversation_id == cid)).length) := by
  obtain ⟨hlen, hmem, hsort, hmore, hcomp⟩ :=
    pageMessages_spec
      ((s.messages.filter (fun m => m.conversation_id == cid)).filter
        (fun m => m.created_at < before.created_at)) limit
  obtain ⟨hlen2, hmem2, hsort2, hmore2, hcomp2⟩ :=
    pageMessages_spec (s.messages.filter (fun m => m.conversation_id == cid))
      limit
  constructor
  · refine ⟨_, _, ?_, hlen, ?_, hsort, hcomp, hmore⟩
    · unfold listMessages
      rw [hpart]
      dsimp only
      rw [hcur]
    · intro m hm
      have h2 := hmem m hm
      obtain ⟨h3, h4⟩ := List.mem_filter.mp h2
      obtain ⟨h5, h6⟩ := List.mem_filter.mp h3
      exact ⟨by simpa using h6, by simpa using h4⟩
  · refine ⟨_, _, ?_, hlen2, ?_, hsort2, hcomp2, hmore2⟩
    · unfold listMessages
      rw [hpart]
    · intro m hm
      have h2 := hmem2 m hm
      obtain ⟨h3, h4⟩ := List.mem_filter.mp h2
      exact by simpa using h4

/-- Witness for `listMessages_amended`: user 1 pages conversation 1 of
`tieStore` before message 2 with limit 50, and without a cursor. -/
theorem listMessages_amended_witness :
    (∃ (page : List Message) (hasMore : Bool),
      listMessages tieStore 1 1 (some 2) 50 = .ok (page, hasMore) ∧
      page.length = min 50
        (((tieStore.messages.filter (fun m => m.conversation_id == 1)).filter
          (fun m => m.created_at < tieMsg2.created_at)).length) ∧
      (∀ m ∈ page, m.conversation_id = 1 ∧
        m.created_at < tieMsg2.created_at) ∧
      page.Pairwise (fun x y => x.created_at ≤ y.created_at) ∧
      (∀ m ∈ (tieStore.messages.filter (fun m => m.conversation_id == 1)).filter
          (fun m => m.created_at < tieMsg2.created_at),
        m ∉ page → ∀ m2 ∈ page, m.created_at ≤ m2.created_at) ∧
      (hasMore = true ↔ 50 <
        ((tieStore.messages.filter (fun m => m.conversation_id == 1)).filter
          (fun m => m.created_at < tieMsg2.created_at)).length)) ∧
    ∃ (page : List Message) (hasMore : Bool),
      listMessages tieStore 1 1 none 50 = .ok (page, hasMore) ∧
      page.length = min 50
        ((tieStore.messages.filter (fun m => m.conversation_id == 1)).length) ∧
      (∀ m ∈ page, m.conversation_id = 1) ∧
      page.Pairwise (fun x y => x.created_at ≤ y.created_at) ∧
      (∀ m ∈ tieStore.messages.filter (fun m => m.conversation_id == 1),
        m ∉ page → ∀ m2 ∈ page, m.created_at ≤ m2.created_at) ∧
      (hasMore = true ↔ 50 <
        (tieStore.messages.filter (fun m => m.conversation_id == 1)).length) :=
  listMessages_amended tieStore 1 1 2 50 (exPartRow 1 "contractor") tieMsg2
    (by decide) (by decide)

/-- Claim C2: for a valid contractor/subcontractor pair with no conversation
linking the two users yet, `createConversation` inserts exactly one
conversation row and exactly two participant rows, each with unread counter
0, and a second sequential call finds that conversation, returns the same
conversation id, and changes nothing — so afterwards exactly one
conversation row for the pair exists. -/
theorem createConversation_idempotent (s : Store) (cu cp : User)
    (cpId now now2 : Nat)
    (hfind : s.users.find? (fun u => u.id == cpId) = some cp)
    (hne : (cp.id == cu.id) = false)
    (hroles : rolesCompatible cu.role cp.role = true)
    (hnomatch : s.conversations.filter
      (fun c => pairRowCount s.participants c.id cu.id cp.id == 2) = [])
    (hfreshp : ∀ p ∈ s.participants, p.conversation_id ≠ s.nextConvId)
    (hfreshc : ∀ c ∈ s.conversations, c.id ≠ s.nextConvId) :
    ∃ s1 : Store,
      createConversation s cu cpId now = .ok (s.nextConvId, s1) ∧
      createConversation s1 cu cpId now2 = .ok (s.nextConvId, s1) ∧
      s1.conversations.length = s.conversations.length + 1 ∧
      s1.participants.length = s.participants.length + 2 ∧
      (s1.conversations.filter
        (fun c => pairRowCount s1.participants c.id cu.id cp.id == 2)).length
        = 1 ∧
      (s1.participants.filter
        (fun q => q.conversation_id == s.nextConvId)).length = 2 ∧
      ∀ q ∈ s1.participants, q.conversation_id = s.nextConvId →
        q.unread_count = 0 ∧ (q.user_id = cu.id ∨ q.user_id = cp.id) := by
  have hget : getExistingConversation s cu.id cp.id = .ok none := by
    unfold getExistingConversation
    rw [hnomatch]
  have hfilterOldNil : s.participants.filter
      (pairRow s.nextConvId cu.id cp.id) = [] := by
    rw [List.filter_eq_nil_iff]
    intro p hp
    simp [pairRow, hfreshp p hp]
  have hcountNew : pairRowCount (createdStore s cu cp now).participants
      s.nextConvId cu.id cp.id = 2 := by
    unfold pairRowCount
    show (List.filter _ (s.participants ++
      [newParticipantRow s.nextConvId cu now,
       newParticipantRow s.nextConvId cp now])).length = 2
    rw [List.filter_append, hfilterOldNil]
    simp [pairRow, newParticipantRow]
  have hcountOld : ∀ c ∈ s.conversations,
      pairRowCount (createdStore s cu cp now).participants c.id cu.id cp.id =
      pairRowCount s.participants c.id cu.id cp.id := by
    intro c hc
    unfold pairRowCount
    show (List.filter _ (s.participants ++
      [newParticipantRow s.nextConvId cu now,
       newParticipantRow s.nextConvId cp now])).length = _
    rw [List.filter_append]
    have hid : (s.nextConvId == c.id) = false :=
      beq_eq_false_iff_ne.mpr (fun he => hfreshc c hc he.symm)
    simp [pairRow, newParticipantRow, hid]
  have hconvfilter : (createdStore s cu cp now).conversations.filter
      (fun c => pairRowCount (createdStore s cu cp now).participants
        c.id cu.id cp.id == 2) = [newConversationRow s.nextConvId now] := by
    show List.filter _
      (s.conversations ++ [newConversationRow s.nextConvId now]) = _
    rw [List.filter_append]
    have hOld : s.conversations.filter
        (fun c => pairRowCount (createdStore s cu cp now).participants
          c.id cu.id cp.id == 2) = [] := by
      rw [List.filter_eq_nil_iff]
      intro c hc
      rw [hcountOld c hc]
      simpa using List.filter_eq_nil_iff.mp hnomatch c hc
    rw [hOld]
    have hnewid : pairRowCount (createdStore s cu cp now).participants
        (newConversationRow s.nextConvId now).id cu.id cp.id = 2 := by
      simpa [newConversationRow] using hcountNew
    simp [hnewid]
  have hget1 : getExistingConversation (createdStore s cu cp now)
      cu.id cp.id = .ok (some (newConversationRow s.nextConvId now)) := by
    unfold getExistingConversation
    rw [hconvfilter]
  have hfind1 : (createdStore s cu cp now).users.find?
      (fun u => u.id == cpId) = some cp := hfind
  refine ⟨createdStore s cu cp now, ?_, ?_, by simp [createdStore], ?_, ?_, ?_, ?_⟩
  · simp only [createConversation, hfind]
    rw [if_neg (by simp [hne]), if_neg (by simp [hroles]), hget]
  · simp only [createConversation, hfind1]
    rw [if_neg (by simp [hne]), if_neg (by simp [hroles]), hget1]
    rfl
  · show (s.participants ++
      [newParticipantRow s.nextConvId cu now,
       newParticipantRow s.nextConvId cp now]).length =
      s.participants.length + 2
    simp
  · rw [hconvfilter]
    rfl
  · show (List.filter _ (s.participants ++
      [newParticipantRow s.nextConvId cu now,
       newParticipantRow s.nextConvId cp now])).length = 2
    rw [List.filter_append]
    have hOldNil : s.participants.filter
        (fun q => q.conversation_id == s.nextConvId) = [] := by
      rw [List.filter_eq_nil_iff]
      intro p hp
      simp [hfreshp p hp]
    rw [hOldNil]
    simp [newParticipantRow]
  · intro q hq hqc
    have hq2 : q ∈ s.participants ++
      [newParticipantRow s.nextConvId cu now,
       newParticipantRow s.nextConvId cp now] := hq
    rcases List.mem_append.mp hq2 with hql | hqr
    · exact absurd hqc (hfreshp q hql)
    · simp only [List.mem_cons, List.mem_singleton] at hqr
      rcases hqr with h | h | h
      · subst h
        exact ⟨rfl, Or.inl rfl⟩
      · subst h
        exact ⟨rfl, Or.inr rfl⟩
      · cases h

/-- Witness for `createConversation_idempotent`: the contractor (user 1)
opens a conversation with the subcontractor (user 2) in `pairStore`, where
none exists yet. -/
theorem createConversation_idempotent_witness :
    ∃ s1 : Store,
      createConversation pairStore exContractor 2 11 =
        .ok (pairStore.nextConvId, s1) ∧
      createConversation s1 exContractor 2 12 =
        .ok (pairStore.nextConvId, s1) ∧
      s1.conversations.length = pairStore.conversations.length + 1 ∧
      s1.participants.length = pairStore.participants.length + 2 ∧
      (s1.conversations.filter
        (fun c => pairRowCount s1.participants c.id exContractor.id
          exSubcontractor.id == 2)).length = 1 ∧
      (s1.participants.filter
        (fun q => q.conversation_id == pairStore.nextConvId)).length = 2 ∧
      ∀ q ∈ s1.participants, q.conversation_id = pairStore.nextConvId →
        q.unread_count = 0 ∧
        (q.user_id = exContractor.id ∨ q.user_id = exSubcontractor.id) :=
  createConversation_idempotent pairStore exContractor exSubcontractor 2 11 12
    (by decide) (by decide) (by decide) (by decide) (by decide) (by decide)

end Chat

